import Mathlib

/-
  Shallow embedding of the classification-and-remediation pipeline of
  tiktok_unfollower.py (class TikTokUnfollower).

  External effects (Playwright page interactions, the wall clock, the
  filesystem) are modelled as explicit environment values passed to the
  embedded functions; instants are abstract naturals.  Each definition
  mirrors one Python function of the source and keeps its name.
-/

/-- One entry of `state['unfollowed_accounts']`: `{'username': ..., 'timestamp': ...}`. -/
structure UnfollowEvent where
  username : String
  timestamp : Nat
deriving DecidableEq, Repr

/-- The in-memory `self.state` dictionary: `last_run`, `processed_accounts`,
`unfollowed_accounts`. -/
structure LedgerState where
  last_run : Option Nat
  processed_accounts : List String
  unfollowed_accounts : List UnfollowEvent
deriving DecidableEq, Repr

/-- The fresh state returned by `load_state` when no usable file exists. -/
def freshState : LedgerState :=
  { last_run := none, processed_accounts := [], unfollowed_accounts := [] }

/-- `should_run` (source lines 175-188): true when `last_run` is unset, or when
`datetime.now()` is not before `last_run + timedelta(seconds=UNFOLLOW_DELAY)`.
It reads the state and returns a Bool; it performs no mutation (the embedding
returns only the Bool). -/
def should_run (delay : Nat) (s : LedgerState) (now : Nat) : Bool :=
  match s.last_run with
  | none => true
  | some last_run => !(now < last_run + delay)

/-- Python's `str.lower()`. -/
def pyLower (s : String) : String :=
  ⟨s.data.map Char.toLower⟩

/-- Python's `s.startswith(pre)`. -/
def pyStartsWith (s pre : String) : Bool :=
  List.isPrefixOf pre.data s.data

/-- Whether `pat` occurs as a contiguous run inside the second list. -/
def listContainsSub (pat : List Char) : List Char → Bool
  | [] => pat.isEmpty
  | c :: cs => List.isPrefixOf pat (c :: cs) || listContainsSub pat cs

/-- Python's `pat in s` substring test. -/
def containsSubstr (s pat : String) : Bool :=
  listContainsSub pat.data s.data

/-- Python's `s.lstrip('@')`. -/
def pyLstripAt (s : String) : String :=
  ⟨s.data.dropWhile (· == '@')⟩

/-- Environment of one `check_if_account_invalid` call: what the external page
interactions would yield.  `gotoFails`: the `page.goto`/initial block raises;
`refreshPresent1`: a Refresh button is found on the first look (the load-failure
signal, triggering the retry click); `innerTextFails`: `page.inner_text` raises;
`refreshPresent2`: the Refresh button is still present after the retry;
`pageText`: the rendered body text; `videoCheckError`: the video-counting block
raises; `videosFound`: some video selector matches at least one element. -/
structure ProfileEnv where
  gotoFails : Bool
  refreshPresent1 : Bool
  innerTextFails : Bool
  refreshPresent2 : Bool
  pageText : String
  videoCheckError : Bool
  videosFound : Bool
deriving DecidableEq, Repr

/-- Result of `check_if_account_invalid`, instrumented with whether the profile
fetch (`page.goto`) was attempted and how many retry clicks were issued. -/
structure CheckResult where
  is_invalid : Bool
  reason : Option String
  fetched : Bool
  retries : Nat
deriving DecidableEq, Repr

/-- `check_if_account_invalid` (source lines 776-868).  Ordered checks: the
lexical default-username test (`username.lower().startswith('user')`) returns
Invalid before any navigation; then the profile is fetched, a present Refresh
button is clicked once and, if still present afterwards, the account is marked
Valid; then the not-found/banned text markers; then the video-presence check.
Every caught exception path returns `(False, None)`. -/
def check_if_account_invalid (username : String) (env : ProfileEnv) : CheckResult :=
  if pyStartsWith (pyLower username) "user" then
    { is_invalid := true, reason := some "Default username format (userXXXX)",
      fetched := false, retries := 0 }
  else if env.gotoFails then
    { is_invalid := false, reason := none, fetched := true, retries := 0 }
  else
    let retries := if env.refreshPresent1 then 1 else 0
    if env.innerTextFails then
      { is_invalid := false, reason := none, fetched := true, retries := retries }
    else
      let page_text := pyLower env.pageText
      if env.refreshPresent2 then
        { is_invalid := false, reason := none, fetched := true, retries := retries }
      else if containsSubstr page_text "couldn\x27t find this account" then
        { is_invalid := true, reason := some "Account not found", fetched := true, retries := retries }
      else if containsSubstr page_text "account not found" then
        { is_invalid := true, reason := some "Account not found", fetched := true, retries := retries }
      else if containsSubstr page_text "banned" && containsSubstr page_text "account" then
        { is_invalid := true, reason := some "Banned account", fetched := true, retries := retries }
      else if env.videoCheckError then
        { is_invalid := false, reason := none, fetched := true, retries := retries }
      else if env.videosFound then
        { is_invalid := false, reason := none, fetched := true, retries := retries }
      else if containsSubstr page_text "no content" || containsSubstr page_text "hasn\x27t posted" then
        { is_invalid := true, reason := some "No videos (likely deleted/banned)", fetched := true, retries := retries }
      else
        { is_invalid := true, reason := some "No videos found", fetched := true, retries := retries }

/-- A parsed, dictionary-shaped state document; each key may be absent
(outer `none`), mirroring the `setdefault` calls of `load_state`. -/
structure StateDoc where
  last_run : Option (Option Nat)
  processed_accounts : Option (List String)
  unfollowed_accounts : Option (List UnfollowEvent)
deriving DecidableEq, Repr

/-- Content of one durable file slot: either bytes on which `json.load` (or the
dictionary-shape validation) fails, or a parsed document. -/
inductive StateFileContent where
  | malformed (raw : String)
  | doc (d : StateDoc)
deriving DecidableEq, Repr

def STATE_FILE : String := "state.json"

/-- The durable filesystem: named slots holding state-file content. -/
abbrev FileSys := List (String × StateFileContent)

/-- `os.rename(src, dst)`: the content moves from `src` to `dst`, replacing any
previous `dst` entry. -/
def renameFile (fs : FileSys) (src dst : String) : FileSys :=
  match fs.lookup src with
  | none => fs
  | some c => ((fs.filter (fun p => p.1 != src)).filter (fun p => p.1 != dst)) ++ [(dst, c)]

/-- `load_state` (source lines 136-164): missing file gives the fresh default
state; a malformed file is renamed to `STATE_FILE + '.backup'` and the fresh
default state is returned; a parsed document has each missing key defaulted
(`last_run` to None, both lists to empty).  Total: no path raises. -/
def load_state (fs : FileSys) : LedgerState × FileSys :=
  match fs.lookup STATE_FILE with
  | none => (freshState, fs)
  | some (.malformed _) => (freshState, renameFile fs STATE_FILE (STATE_FILE ++ ".backup"))
  | some (.doc d) =>
      ({ last_run := d.last_run.getD none,
         processed_accounts := d.processed_accounts.getD [],
         unfollowed_accounts := d.unfollowed_accounts.getD [] }, fs)

/-- One element of the `invalid_accounts` list handed to `export_to_csv`:
a Python dict whose `username`/`reason` keys may be absent (`account.get`
defaults are applied when writing the row). -/
structure CsvAccount where
  username : Option String
  reason : Option String
deriving DecidableEq, Repr

def csvHeaderRow : List String := ["Timestamp", "Username", "Detection Reason"]

/-- One data row written by `export_to_csv` for one invalid account. -/
def csvRow (timestamp : String) (a : CsvAccount) : List String :=
  [timestamp, a.username.getD "Unknown", a.reason.getD "Invalid account detected"]

/-- `export_to_csv` (source lines 190-214).  The CSV file is `none` when it does
not exist yet; opening in append mode creates it; the header row is written
exactly when the file did not exist before the call. -/
def export_to_csv (file : Option (List (List String))) (invalid_accounts : List CsvAccount)
    (timestamp : String) : Option (List (List String)) :=
  let file_exists := file.isSome
  let rows := file.getD []
  let rows := if file_exists then rows else rows ++ [csvHeaderRow]
  some (rows ++ invalid_accounts.map (csvRow timestamp))

/-- The configuration values consumed by the remediation loop. -/
structure Config where
  batchSize : Nat
  dryRun : Bool
deriving DecidableEq, Repr

/-- One entry of the `invalid_accounts` list built by the scan:
`{'username': ..., 'index': ..., 'reason': ...}`. -/
structure InvalidAccount where
  username : String
  index : Nat
  reason : Option String
deriving DecidableEq, Repr

/-- Environment of one iteration of the `unfollow_batch` loop: outcomes of the
external interactions.  `requeryFails`: re-querying the modal raises;
`modalCount`: `follower_items.count()`; `buttonFound`: an unfollow button is
located by either selector; `scrollFails`: `scroll_into_view_if_needed` raises;
`clickFails`: the unfollow click raises; `clickNow`: the instant recorded with a
successful unfollow. -/
structure ItemEnv where
  requeryFails : Bool
  modalCount : Nat
  buttonFound : Bool
  scrollFails : Bool
  clickFails : Bool
  clickNow : Nat
deriving DecidableEq, Repr

/-- Body of the `for account in accounts[:batch_size]` loop of `unfollow_batch`
(source lines 993-1060).  Returns the updated state, the number of mutating
unfollow clicks issued (0 or 1), and the increment of the `unfollowed` counter.
Every caught exception path leaves the state unchanged (`continue`). -/
def processOne (cfg : Config) (s : LedgerState) (account : InvalidAccount) (e : ItemEnv) :
    LedgerState × Nat × Nat :=
  if account.username ∈ s.processed_accounts then (s, 0, 0)
  else if e.requeryFails then (s, 0, 0)
  else if e.modalCount ≤ account.index then (s, 0, 0)
  else if e.buttonFound then
    if e.scrollFails then (s, 0, 0)
    else if cfg.dryRun then
      ({ s with processed_accounts := s.processed_accounts ++ [account.username] }, 0, 1)
    else if e.clickFails then (s, 1, 0)
    else
      ({ s with
          processed_accounts := s.processed_accounts ++ [account.username],
          unfollowed_accounts := s.unfollowed_accounts ++ [⟨account.username, e.clickNow⟩] }, 1, 1)
  else (s, 0, 0)

/-- Result of `unfollow_batch`: final state, number of mutating clicks issued,
the `unfollowed` counter, and the trace of usernames the loop iterated over. -/
structure BatchResult where
  state : LedgerState
  clicks : Nat
  unfollowed : Nat
  visited : List String
deriving DecidableEq, Repr

/-- The `for account in accounts[:batch_size]` loop of `unfollow_batch`,
threading the state and collecting the visit trace; `i` indexes the
per-iteration environment. -/
def runBatchLoop (cfg : Config) (env : Nat → ItemEnv) :
    Nat → LedgerState → List InvalidAccount → BatchResult
  | _, s, [] => { state := s, clicks := 0, unfollowed := 0, visited := [] }
  | i, s, account :: rest =>
      let r1 := processOne cfg s account (env i)
      let r := runBatchLoop cfg env (i + 1) r1.1 rest
      { state := r.state, clicks := r1.2.1 + r.clicks, unfollowed := r1.2.2 + r.unfollowed,
        visited := account.username :: r.visited }

/-- `unfollow_batch` (source lines 982-1071): slices the candidate list to
`batch_size = min(BATCH_SIZE, len(accounts))`, runs the loop, then sets
`state['last_run']` to the completion instant. -/
def unfollow_batch (cfg : Config) (env : Nat → ItemEnv) (completionNow : Nat)
    (s : LedgerState) (accounts : List InvalidAccount) : BatchResult :=
  let batch_size := min cfg.batchSize accounts.length
  let r := runBatchLoop cfg env 0 s (accounts.take batch_size)
  { r with state := { r.state with last_run := some completionNow } }

/-- One entry of the `usernames` list built by the extraction phase of
`unfollow_invalid_accounts`. -/
structure ExtractedAccount where
  username : String
  username_clean : String
  index : Nat
deriving DecidableEq, Repr

/-- Processing of one modal element in the extraction phase (source lines
889-922): `none` models an element whose username could not be extracted (or an
exception).  An empty/placeholder username is dropped; a username already in
`processed_accounts` is skipped. -/
def extractOne (processed : List String) (entry : Nat × Option String) :
    Option ExtractedAccount :=
  match entry.2 with
  | none => none
  | some username =>
      if username = "" ∨ username = "@" ∨ username = "@_" then none
      else if username ∈ processed then none
      else some { username := username, username_clean := pyLstripAt username, index := entry.1 }

/-- The extraction phase: enumerate the modal elements with their indices and
keep the extractable, non-placeholder, not-yet-processed usernames in order. -/
def extractUsernames (processed : List String) (elements : List (Option String)) :
    List ExtractedAccount :=
  (elements.enum).filterMap (extractOne processed)

/-- The classification loop of `unfollow_invalid_accounts` (source lines
929-963): each extracted account is classified via `check_if_account_invalid`
(on the @-stripped username), appended to `processed_accounts`, and collected
into `invalid_accounts` when the verdict is invalid. -/
def classifyLoop (profEnv : Nat → ProfileEnv) :
    Nat → LedgerState → List ExtractedAccount → LedgerState × List InvalidAccount
  | _, s, [] => (s, [])
  | i, s, a :: rest =>
      let c := check_if_account_invalid a.username_clean (profEnv i)
      let s1 := { s with processed_accounts := s.processed_accounts ++ [a.username] }
      let r := classifyLoop profEnv (i + 1) s1 rest
      (r.1,
        (if c.is_invalid then [{ username := a.username, index := a.index, reason := c.reason }]
         else []) ++ r.2)

/-- Result of one `unfollow_invalid_accounts` run: the final ledger state, the
invalid candidates discovered, the trace of (raw) usernames handed to the
classifier this run, and whether a remediation batch was invoked. -/
structure ScanResult where
  state : LedgerState
  invalid : List InvalidAccount
  checked : List String
  ranBatch : Bool
deriving DecidableEq, Repr

/-- `unfollow_invalid_accounts` (source lines 870-980): extraction, the
classification loop, and — only when some invalid account was found — the
remediation batch.  CSV export and navigation do not touch the ledger and are
omitted here. -/
def unfollow_invalid_accounts (cfg : Config) (elements : List (Option String))
    (profEnv : Nat → ProfileEnv) (itemEnv : Nat → ItemEnv) (completionNow : Nat)
    (s : LedgerState) : ScanResult :=
  let usernames := extractUsernames s.processed_accounts elements
  let scanned := classifyLoop profEnv 0 s usernames
  let invalid_accounts := scanned.2
  if invalid_accounts.isEmpty then
    { state := scanned.1, invalid := invalid_accounts,
      checked := usernames.map (·.username), ranBatch := false }
  else
    { state := (unfollow_batch cfg itemEnv completionNow scanned.1 invalid_accounts).state,
      invalid := invalid_accounts,
      checked := usernames.map (·.username), ranBatch := true }

/-- Spec-side definition, for comparison only (claim C3): the default-assignment
pattern of spec §4.3 step 1, read literally — the fixed textual prefix followed
by digits. -/
def specDefaultPattern (handle : String) : Bool :=
  pyStartsWith handle "user" && !(handle.data.drop 4).isEmpty
    && (handle.data.drop 4).all Char.isDigit

/-- The cross-list invariant of claim C10: every recorded remediation event is
about a handle recorded as classified. -/
def remediationSubsetInv (s : LedgerState) : Prop :=
  ∀ ev ∈ s.unfollowed_accounts, ev.username ∈ s.processed_accounts

theorem processOne_last_run (cfg : Config) (s : LedgerState) (a : InvalidAccount) (e : ItemEnv) :
    (processOne cfg s a e).1.last_run = s.last_run := by
  unfold processOne
  repeat' split
  all_goals rfl

theorem processOne_processed (cfg : Config) (s : LedgerState) (a : InvalidAccount) (e : ItemEnv) :
    ∃ t, (processOne cfg s a e).1.processed_accounts = s.processed_accounts ++ t := by
  unfold processOne
  repeat' split
  all_goals first
    | exact ⟨[], (List.append_nil _).symm⟩
    | exact ⟨[a.username], rfl⟩

theorem processOne_dry (cfg : Config) (hdry : cfg.dryRun = true)
    (s : LedgerState) (a : InvalidAccount) (e : ItemEnv) :
    (processOne cfg s a e).1.unfollowed_accounts = s.unfollowed_accounts
    ∧ (processOne cfg s a e).2.1 = 0 := by
  unfold processOne
  repeat' split
  all_goals simp_all

theorem inv_append_processed (s : LedgerState) (t : List String)
    (hinv : remediationSubsetInv s) :
    remediationSubsetInv { s with processed_accounts := s.processed_accounts ++ t } :=
  fun ev hev => List.mem_append_left _ (hinv ev hev)

theorem inv_record (s : LedgerState) (u : String) (ts : Nat)
    (hinv : remediationSubsetInv s) :
    remediationSubsetInv
      { s with processed_accounts := s.processed_accounts ++ [u],
               unfollowed_accounts := s.unfollowed_accounts ++ [⟨u, ts⟩] } := by
  intro ev hev
  rcases List.mem_append.mp hev with h | h
  · exact List.mem_append_left _ (hinv ev h)
  · simp at h
    subst h
    exact List.mem_append_right _ (by simp)

theorem processOne_inv (cfg : Config) (s : LedgerState) (a : InvalidAccount) (e : ItemEnv)
    (hinv : remediationSubsetInv s) : remediationSubsetInv (processOne cfg s a e).1 := by
  unfold processOne
  repeat' split
  all_goals first
    | exact hinv
    | exact inv_append_processed s [a.username] hinv
    | exact inv_record s a.username e.clickNow hinv

theorem processOne_mem_self (cfg : Config) (hdry : cfg.dryRun = true)
    (s : LedgerState) (a : InvalidAccount) (e : ItemEnv)
    (h1 : e.requeryFails = false) (h2 : e.scrollFails = false) (h3 : e.buttonFound = true)
    (h4 : a.index < e.modalCount) :
    a.username ∈ (processOne cfg s a e).1.processed_accounts := by
  by_cases hmem : a.username ∈ s.processed_accounts
  · have hp := processOne_processed cfg s a e
    rcases hp with ⟨t, ht⟩
    rw [ht]
    exact List.mem_append_left _ hmem
  · simp [processOne, hmem, h1, h2, h3, hdry, Nat.not_le.mpr h4]

theorem runBatchLoop_visited (cfg : Config) (env : Nat → ItemEnv) (l : List InvalidAccount) :
    ∀ i s, (runBatchLoop cfg env i s l).visited = l.map (·.username) := by
  induction l with
  | nil => intro i s; rfl
  | cons a rest ih =>
      intro i s
      simp only [runBatchLoop, List.map_cons]
      rw [ih]

theorem runBatchLoop_last_run (cfg : Config) (env : Nat → ItemEnv) (l : List InvalidAccount) :
    ∀ i s, (runBatchLoop cfg env i s l).state.last_run = s.last_run := by
  induction l with
  | nil => intro i s; rfl
  | cons a rest ih =>
      intro i s
      simp only [runBatchLoop]
      rw [ih, processOne_last_run]

theorem runBatchLoop_processed (cfg : Config) (env : Nat → ItemEnv) (l : List InvalidAccount) :
    ∀ i s, ∃ t,
      (runBatchLoop cfg env i s l).state.processed_accounts = s.processed_accounts ++ t := by
  induction l with
  | nil => intro i s; exact ⟨[], (List.append_nil _).symm⟩
  | cons a rest ih =>
      intro i s
      obtain ⟨t1, ht1⟩ := processOne_processed cfg s a (env i)
      obtain ⟨t2, ht2⟩ := ih (i + 1) (processOne cfg s a (env i)).1
      refine ⟨t1 ++ t2, ?_⟩
      simp only [runBatchLoop]
      rw [ht2, ht1, List.append_assoc]

theorem runBatchLoop_mem_mono (cfg : Config) (env : Nat → ItemEnv) (l : List InvalidAccount)
    (i : Nat) (s : LedgerState) (x : String) (hx : x ∈ s.processed_accounts) :
    x ∈ (runBatchLoop cfg env i s l).state.processed_accounts := by
  obtain ⟨t, ht⟩ := runBatchLoop_processed cfg env l i s
  rw [ht]
  exact List.mem_append_left _ hx

theorem runBatchLoop_dry (cfg : Config) (hdry : cfg.dryRun = true) (env : Nat → ItemEnv)
    (l : List InvalidAccount) :
    ∀ i s, (runBatchLoop cfg env i s l).clicks = 0
      ∧ (runBatchLoop cfg env i s l).state.unfollowed_accounts = s.unfollowed_accounts := by
  induction l with
  | nil => intro i s; exact ⟨rfl, rfl⟩
  | cons a rest ih =>
      intro i s
      have hp := processOne_dry cfg hdry s a (env i)
      have hr := ih (i + 1) (processOne cfg s a (env i)).1
      constructor
      · simp only [runBatchLoop]
        rw [hp.2, hr.1]
      · simp only [runBatchLoop]
        rw [hr.2, hp.1]

theorem runBatchLoop_mem_dry (cfg : Config) (hdry : cfg.dryRun = true) (env : Nat → ItemEnv)
    (hb : ∀ k, (env k).requeryFails = false ∧ (env k).scrollFails = false
      ∧ (env k).buttonFound = true)
    (l : List InvalidAccount) :
    ∀ i s, (∀ a ∈ l, ∀ k, a.index < (env k).modalCount) →
      ∀ a ∈ l, a.username ∈ (runBatchLoop cfg env i s l).state.processed_accounts := by
  induction l with
  | nil => intro i s _ a ha; cases ha
  | cons b rest ih =>
      intro i s hidx a ha
      rcases List.mem_cons.mp ha with rfl | hmem
      · simp only [runBatchLoop]
        apply runBatchLoop_mem_mono
        exact processOne_mem_self cfg hdry s a (env i) (hb i).1 (hb i).2.1 (hb i).2.2
          (hidx a (List.mem_cons_self a rest) i)
      · simp only [runBatchLoop]
        exact ih (i + 1) _ (fun x hx k => hidx x (List.mem_cons_of_mem b hx) k) a hmem

theorem runBatchLoop_inv (cfg : Config) (env : Nat → ItemEnv) (l : List InvalidAccount) :
    ∀ i s, remediationSubsetInv s → remediationSubsetInv (runBatchLoop cfg env i s l).state := by
  induction l with
  | nil => intro i s hinv; exact hinv
  | cons a rest ih =>
      intro i s hinv
      simp only [runBatchLoop]
      exact ih (i + 1) _ (processOne_inv cfg s a (env i) hinv)

theorem classifyLoop_state (profEnv : Nat → ProfileEnv) (l : List ExtractedAccount) :
    ∀ i s, (classifyLoop profEnv i s l).1 =
      { s with processed_accounts := s.processed_accounts ++ l.map (·.username) } := by
  induction l with
  | nil => intro i s; simp [classifyLoop]
  | cons a rest ih =>
      intro i s
      simp only [classifyLoop, List.map_cons]
      rw [ih]
      simp

theorem extractUsernames_skips (processed : List String) (elements : List (Option String))
    (h : String) (hmem : h ∈ processed) :
    h ∉ (extractUsernames processed elements).map (·.username) := by
  intro hcon
  rcases List.mem_map.mp hcon with ⟨a, hain, hname⟩
  rcases List.mem_filterMap.mp hain with ⟨entry, _, hsome⟩
  rcases entry with ⟨idx, oe⟩
  cases oe with
  | none => simp [extractOne] at hsome
  | some u =>
      unfold extractOne at hsome
      simp only at hsome
      split at hsome
      · exact Option.noConfusion hsome
      · split at hsome
        · exact Option.noConfusion hsome
        · rename_i hnp
          injection hsome with hsome
          rw [← hsome] at hname
          simp at hname
          rw [hname] at hnp
          exact hnp hmem

theorem lookup_none_of_ne (k : String) (l : FileSys)
    (h : ∀ p ∈ l, p.1 ≠ k) : l.lookup k = none := by
  induction l with
  | nil => rfl
  | cons p rest ih =>
      have hp := h p (List.mem_cons_self p rest)
      have hk : (k == p.1) = false := by
        simp only [beq_eq_false_iff_ne]
        exact fun he => hp he.symm
      rcases p with ⟨k1, v1⟩
      simp only [List.lookup_cons, hk]
      exact ih (fun q hq => h q (List.mem_cons_of_mem _ hq))

theorem lookup_append_left_none (k : String) (l1 l2 : FileSys)
    (h : l1.lookup k = none) : (l1 ++ l2).lookup k = l2.lookup k := by
  induction l1 with
  | nil => rfl
  | cons p rest ih =>
      rcases p with ⟨k1, v1⟩
      simp only [List.lookup_cons] at h ⊢
      cases hk : (k == k1) with
      | true => rw [hk] at h; exact Option.noConfusion h
      | false =>
          rw [hk] at h
          rw [List.cons_append]
          simp only [List.lookup_cons, hk]
          exact ih h

theorem renameFile_lookups (fs : FileSys) (src dst : String) (c : StateFileContent)
    (hsd : src ≠ dst) (hc : fs.lookup src = some c) :
    (renameFile fs src dst).lookup src = none
    ∧ (renameFile fs src dst).lookup dst = some c := by
  unfold renameFile
  rw [hc]
  have hleft1 : ((fs.filter (fun p => p.1 != src)).filter (fun p => p.1 != dst)).lookup src
      = none := by
    apply lookup_none_of_ne
    intro p hp
    have hp1 : p ∈ fs.filter (fun p => p.1 != src) := List.mem_of_mem_filter hp
    have := (List.mem_filter.mp hp1).2
    simpa [bne_iff_ne] using this
  have hleft2 : ((fs.filter (fun p => p.1 != src)).filter (fun p => p.1 != dst)).lookup dst
      = none := by
    apply lookup_none_of_ne
    intro p hp
    have := (List.mem_filter.mp hp).2
    simpa [bne_iff_ne] using this
  constructor
  · rw [lookup_append_left_none _ _ _ hleft1]
    have hk : (src == dst) = false := by
      simp only [beq_eq_false_iff_ne]
      exact hsd
    simp [List.lookup_cons, hk]
  · rw [lookup_append_left_none _ _ _ hleft2]
    simp [List.lookup_cons]

theorem scan_checked (cfg : Config) (elements : List (Option String))
    (profEnv : Nat → ProfileEnv) (itemEnv : Nat → ItemEnv) (now : Nat) (s : LedgerState) :
    (unfollow_invalid_accounts cfg elements profEnv itemEnv now s).checked
      = (extractUsernames s.processed_accounts elements).map (·.username) := by
  simp only [unfollow_invalid_accounts]
  split <;> rfl

theorem scan_state_empty (cfg : Config) (elements : List (Option String))
    (profEnv : Nat → ProfileEnv) (itemEnv : Nat → ItemEnv) (now : Nat) (s : LedgerState)
    (hE : ((classifyLoop profEnv 0 s (extractUsernames s.processed_accounts elements)).2).isEmpty
      = true) :
    (unfollow_invalid_accounts cfg elements profEnv itemEnv now s).state
      = (classifyLoop profEnv 0 s (extractUsernames s.processed_accounts elements)).1 := by
  simp only [unfollow_invalid_accounts, hE]
  rfl

theorem scan_state_batch (cfg : Config) (elements : List (Option String))
    (profEnv : Nat → ProfileEnv) (itemEnv : Nat → ItemEnv) (now : Nat) (s : LedgerState)
    (hE : ((classifyLoop profEnv 0 s (extractUsernames s.processed_accounts elements)).2).isEmpty
      = false) :
    (unfollow_invalid_accounts cfg elements profEnv itemEnv now s).state
      = (unfollow_batch cfg itemEnv now
          (classifyLoop profEnv 0 s (extractUsernames s.processed_accounts elements)).1
          (classifyLoop profEnv 0 s (extractUsernames s.processed_accounts elements)).2).state := by
  simp only [unfollow_invalid_accounts, hE]
  rfl

theorem scan_ranBatch_empty (cfg : Config) (elements : List (Option String))
    (profEnv : Nat → ProfileEnv) (itemEnv : Nat → ItemEnv) (now : Nat) (s : LedgerState)
    (hE : ((classifyLoop profEnv 0 s (extractUsernames s.processed_accounts elements)).2).isEmpty
      = false) :
    (unfollow_invalid_accounts cfg elements profEnv itemEnv now s).ranBatch = true := by
  simp only [unfollow_invalid_accounts, hE]
  rfl

theorem check_fetched (username : String) (env : ProfileEnv)
    (h : pyStartsWith (pyLower username) "user" = false) :
    (check_if_account_invalid username env).fetched = true := by
  unfold check_if_account_invalid
  rw [if_neg (by simp [h])]
  repeat' split
  all_goals simp [apply_ite CheckResult.fetched]

/-- Claim C1: for every run with a non-empty ordered list of invalid candidates
and configured batch size, the remediation loop of `unfollow_batch` attempts
exactly `min(batchSize, len(candidates))` accounts, and they are the first that
many candidates in enumeration order (no re-sorting, no prioritization). -/
theorem c1_batch_bound_and_order (cfg : Config) (env : Nat → ItemEnv) (now : Nat)
    (s : LedgerState) (accounts : List InvalidAccount) (_hne : accounts ≠ []) :
    (unfollow_batch cfg env now s accounts).visited
      = (accounts.map (·.username)).take (min cfg.batchSize accounts.length)
    ∧ (unfollow_batch cfg env now s accounts).visited.length
      = min cfg.batchSize accounts.length := by
  have hv : (unfollow_batch cfg env now s accounts).visited
      = (accounts.take (min cfg.batchSize accounts.length)).map (·.username) := by
    simp only [unfollow_batch]
    rw [runBatchLoop_visited]
  constructor
  · rw [hv, List.map_take]
  · rw [hv, List.length_map, List.length_take]
    omega

/-- Witness for C1 at a concrete input: batch size 2, three candidates. -/
theorem c1_batch_bound_and_order_witness :
    (unfollow_batch ⟨2, true⟩ (fun _ => ⟨false, 10, true, false, false, 0⟩) 5 freshState
        [⟨"a", 0, none⟩, ⟨"b", 1, none⟩, ⟨"c", 2, none⟩]).visited = ["a", "b"] :=
  (c1_batch_bound_and_order ⟨2, true⟩ (fun _ => ⟨false, 10, true, false, false, 0⟩) 5 freshState
    [⟨"a", 0, none⟩, ⟨"b", 1, none⟩, ⟨"c", 2, none⟩] (by decide)).1.trans (by decide)

/-- Claim C2: `unfollow_batch` completes by setting `last_run` to the completion
instant, also on an empty candidate list; under a monotone clock the value only
moves forward; the loop body itself never changes `last_run`; and a scan that
runs no batch leaves `last_run` untouched. -/
theorem c2_last_run_advance (cfg : Config) (itemEnv : Nat → ItemEnv)
    (profEnv : Nat → ProfileEnv) (elements : List (Option String)) (now : Nat)
    (s : LedgerState) (accounts : List InvalidAccount) :
    (unfollow_batch cfg itemEnv now s accounts).state.last_run = some now
    ∧ (∀ t t', s.last_run = some t → t ≤ now →
        (unfollow_batch cfg itemEnv now s accounts).state.last_run = some t' → t ≤ t')
    ∧ (∀ i l s0, (runBatchLoop cfg itemEnv i s0 l).state.last_run = s0.last_run)
    ∧ ((unfollow_invalid_accounts cfg elements profEnv itemEnv now s).ranBatch = false →
        (unfollow_invalid_accounts cfg elements profEnv itemEnv now s).state.last_run
          = s.last_run) := by
  refine ⟨rfl, ?_, ?_, ?_⟩
  · intro t t' ht hle heq
    have h1 : (unfollow_batch cfg itemEnv now s accounts).state.last_run = some now := rfl
    rw [h1] at heq
    injection heq with heq
    omega
  · intro i l s0
    exact runBatchLoop_last_run cfg itemEnv l i s0
  · intro hrb
    cases hE : ((classifyLoop profEnv 0 s
        (extractUsernames s.processed_accounts elements)).2).isEmpty with
    | true =>
        rw [scan_state_empty cfg elements profEnv itemEnv now s hE, classifyLoop_state]
    | false =>
        rw [scan_ranBatch_empty cfg elements profEnv itemEnv now s hE] at hrb
        exact Bool.noConfusion hrb

/-- Witness for C2 at concrete inputs: an empty batch advances `last_run`
forward, and a scan that found nothing leaves it unchanged. -/
theorem c2_last_run_advance_witness :
    (5 : Nat) ≤ 7
    ∧ (unfollow_invalid_accounts ⟨5, true⟩ [none]
        (fun _ => ⟨false, false, false, false, "", false, false⟩)
        (fun _ => ⟨false, 10, true, false, false, 0⟩) 7
        { last_run := some 5, processed_accounts := [], unfollowed_accounts := [] }).state.last_run
      = some 5 :=
  ⟨(c2_last_run_advance ⟨5, true⟩ (fun _ => ⟨false, 10, true, false, false, 0⟩)
      (fun _ => ⟨false, false, false, false, "", false, false⟩) [none] 7
      { last_run := some 5, processed_accounts := [], unfollowed_accounts := [] } []).2.1
      5 7 rfl (by decide) rfl,
   (c2_last_run_advance ⟨5, true⟩ (fun _ => ⟨false, 10, true, false, false, 0⟩)
      (fun _ => ⟨false, false, false, false, "", false, false⟩) [none] 7
      { last_run := some 5, processed_accounts := [], unfollowed_accounts := [] } []).2.2.2
      (by decide)⟩

/-- Claim C4: `should_run` is true exactly when `last_run` is absent or
`now ≥ last_run + cooldown`; the boundary is inclusive and one second earlier
gives false; the function is a pure read of the state. -/
theorem c4_should_run_boundary (delay now : Nat) (s : LedgerState) :
    (should_run delay s now = true ↔
      s.last_run = none ∨ ∃ t, s.last_run = some t ∧ t + delay ≤ now)
    ∧ (∀ t, should_run delay { s with last_run := some t } (t + delay) = true)
    ∧ (∀ t, 0 < delay →
        should_run delay { s with last_run := some t } (t + delay - 1) = false) := by
  refine ⟨?_, ?_, ?_⟩
  · cases hs : s.last_run with
    | none => simp [should_run, hs]
    | some t => simp [should_run, hs, Nat.not_lt]
  · intro t
    simp [should_run]
  · intro t hd
    have hlt : t + delay - 1 < t + delay := by omega
    simp [should_run, hlt]

/-- Witness for C4: the inclusive boundary and the one-second-early case at
cooldown 10800 and `last_run` 100. -/
theorem c4_should_run_boundary_witness :
    should_run 10800 { freshState with last_run := some 100 } (100 + 10800) = true
    ∧ should_run 10800 { freshState with last_run := some 100 } (100 + 10800 - 1) = false :=
  ⟨(c4_should_run_boundary 10800 0 freshState).2.1 100,
   (c4_should_run_boundary 10800 0 freshState).2.2 100 (by decide)⟩

/-- Claim C9: two successive `export_to_csv` calls against a non-existent sink
produce exactly one header row followed by one row per invalid account from both
calls in call order; an existing file only receives data rows; and each data row
carries the timestamp, the handle and the reason. -/
theorem c9_audit_header_once (a1 a2 : List CsvAccount) (ts1 ts2 : String) :
    export_to_csv (export_to_csv none a1 ts1) a2 ts2
      = some (csvHeaderRow :: (a1.map (csvRow ts1) ++ a2.map (csvRow ts2)))
    ∧ (∀ (rows : List (List String)) (accounts : List CsvAccount) (ts : String),
        export_to_csv (some rows) accounts ts = some (rows ++ accounts.map (csvRow ts)))
    ∧ (∀ (ts handle reason : String),
        csvRow ts { username := some handle, reason := some reason } = [ts, handle, reason]) := by
  refine ⟨?_, ?_, ?_⟩
  · simp [export_to_csv]
  · intro rows accounts ts
    simp [export_to_csv]
  · intro ts handle reason
    rfl

/-- Claim C3 as stated is false: the code's lexical check is
`username.lower().startswith('user')`, which also fires on handles where no
digits follow the prefix.  Handle "userabc" does not match the spec's
prefix-followed-by-digits pattern, yet the classifier returns
Invalid/DefaultUsername without any profile fetch. -/
theorem c3_counterexample :
    specDefaultPattern "userabc" = false
    ∧ (check_if_account_invalid "userabc"
        ⟨false, false, false, false, "", false, false⟩).is_invalid = true
    ∧ (check_if_account_invalid "userabc"
        ⟨false, false, false, false, "", false, false⟩).reason
        = some "Default username format (userXXXX)"
    ∧ (check_if_account_invalid "userabc"
        ⟨false, false, false, false, "", false, false⟩).fetched = false := by
  refine ⟨by decide, by decide, by decide, by decide⟩

/-- Claim C3 amended: the classifier returns Invalid with the DefaultUsername
reason and without attempting any profile fetch exactly when the lowercased
handle starts with the fixed prefix "user" (regardless of what, if anything,
follows); in particular "user48213" is covered. -/
theorem c3_default_username_short_circuit (username : String) (env : ProfileEnv) :
    ((check_if_account_invalid username env).is_invalid = true
      ∧ (check_if_account_invalid username env).reason
          = some "Default username format (userXXXX)"
      ∧ (check_if_account_invalid username env).fetched = false)
    ↔ pyStartsWith (pyLower username) "user" = true := by
  constructor
  · intro hc
    by_cases h : pyStartsWith (pyLower username) "user" = true
    · exact h
    · exfalso
      rw [Bool.not_eq_true] at h
      have hf := check_fetched username env h
      rw [hc.2.2] at hf
      exact Bool.noConfusion hf
  · intro h
    unfold check_if_account_invalid
    rw [if_pos h]
    exact ⟨rfl, rfl, rfl⟩

/-- Claim C5: fail-open classification.  For a handle that escapes the lexical
check: a load-failure signal that persists after the single retry yields Valid
with no reason; the retry is issued exactly once when the signal is present; and
an error raised during the fetch, the text extraction, or the video-presence
check also yields Valid with no reason. -/
theorem c5_fail_open (username : String) (env : ProfileEnv)
    (h : pyStartsWith (pyLower username) "user" = false) :
    (env.refreshPresent1 = true → env.refreshPresent2 = true →
      (check_if_account_invalid username env).is_invalid = false
      ∧ (check_if_account_invalid username env).reason = none)
    ∧ (env.gotoFails = false → env.refreshPresent1 = true →
        (check_if_account_invalid username env).retries = 1)
    ∧ (env.gotoFails = true →
        (check_if_account_invalid username env).is_invalid = false
        ∧ (check_if_account_invalid username env).reason = none)
    ∧ (env.innerTextFails = true →
        (check_if_account_invalid username env).is_invalid = false
        ∧ (check_if_account_invalid username env).reason = none)
    ∧ (env.videoCheckError = true →
        containsSubstr (pyLower env.pageText) "couldn\x27t find this account" = false →
        containsSubstr (pyLower env.pageText) "account not found" = false →
        (containsSubstr (pyLower env.pageText) "banned"
          && containsSubstr (pyLower env.pageText) "account") = false →
        (check_if_account_invalid username env).is_invalid = false
        ∧ (check_if_account_invalid username env).reason = none) := by
  refine ⟨?_, ?_, ?_, ?_, ?_⟩
  · intro hr1 hr2
    by_cases hg : env.gotoFails = true <;> by_cases hit : env.innerTextFails = true <;>
      simp [check_if_account_invalid, h, hg, hit, hr1, hr2]
  · intro hg hr1
    unfold check_if_account_invalid
    rw [if_neg (by simp [h]), if_neg (by simp [hg]), if_pos hr1]
    repeat' split
    all_goals simp [apply_ite CheckResult.retries]
  · intro hg
    simp [check_if_account_invalid, h, hg]
  · intro hit
    by_cases hg : env.gotoFails = true <;>
      simp [check_if_account_invalid, h, hg, hit]
  · intro hvce hm1 hm2 hm3
    by_cases hg : env.gotoFails = true <;> by_cases hit : env.innerTextFails = true <;>
      by_cases hr2 : env.refreshPresent2 = true <;>
      simp [check_if_account_invalid, h, hg, hit, hr2, hm1, hm2, hm3, hvce]

/-- Witness for C5: a profile whose Refresh affordance persists after the retry
is classified Valid with no reason. -/
theorem c5_fail_open_witness :
    (check_if_account_invalid "alice"
      ⟨false, true, false, true, "", false, false⟩).is_invalid = false
    ∧ (check_if_account_invalid "alice"
      ⟨false, true, false, true, "", false, false⟩).reason = none :=
  (c5_fail_open "alice" ⟨false, true, false, true, "", false, false⟩ (by decide)).1
    (by decide) (by decide)

/-- Claim C6: under dry-run configuration `unfollow_batch` issues zero mutating
clicks and leaves `remediationEvents` untouched; with the per-item interactions
succeeding, every candidate in the batch ends up recorded in
`classifiedHandles`; `last_run` is still advanced as in a normal run. -/
theorem c6_dry_run_isolation (cfg : Config) (env : Nat → ItemEnv) (now : Nat)
    (s : LedgerState) (accounts : List InvalidAccount) (hdry : cfg.dryRun = true)
    (hb : ∀ k, (env k).requeryFails = false ∧ (env k).scrollFails = false
      ∧ (env k).buttonFound = true)
    (hidx : ∀ a ∈ accounts, ∀ k, a.index < (env k).modalCount) :
    (unfollow_batch cfg env now s accounts).clicks = 0
    ∧ (unfollow_batch cfg env now s accounts).state.unfollowed_accounts
        = s.unfollowed_accounts
    ∧ (∀ a ∈ accounts.take (min cfg.batchSize accounts.length),
        a.username ∈ (unfollow_batch cfg env now s accounts).state.processed_accounts)
    ∧ (unfollow_batch cfg env now s accounts).state.last_run = some now := by
  refine ⟨?_, ?_, ?_, rfl⟩
  · exact (runBatchLoop_dry cfg hdry env _ 0 s).1
  · exact (runBatchLoop_dry cfg hdry env _ 0 s).2
  · intro a ha
    exact runBatchLoop_mem_dry cfg hdry env hb _ 0 s
      (fun x hx k => hidx x (List.take_subset _ _ hx) k) a ha

/-- Witness for C6: two invalid candidates under dry run with batch size 5. -/
theorem c6_dry_run_isolation_witness :
    (unfollow_batch ⟨5, true⟩ (fun _ => ⟨false, 10, true, false, false, 0⟩) 9 freshState
        [⟨"a", 0, none⟩, ⟨"b", 1, none⟩]).clicks = 0
    ∧ (unfollow_batch ⟨5, true⟩ (fun _ => ⟨false, 10, true, false, false, 0⟩) 9 freshState
        [⟨"a", 0, none⟩, ⟨"b", 1, none⟩]).state.unfollowed_accounts
        = freshState.unfollowed_accounts :=
  ⟨(c6_dry_run_isolation ⟨5, true⟩ (fun _ => ⟨false, 10, true, false, false, 0⟩) 9 freshState
      [⟨"a", 0, none⟩, ⟨"b", 1, none⟩] rfl (fun _ => ⟨rfl, rfl, rfl⟩)
      (by intro a ha k; simp at ha
          rcases ha with rfl | rfl <;>
            first
              | exact (by decide : (0:Nat) < 10)
              | exact (by decide : (1:Nat) < 10))).1,
   (c6_dry_run_isolation ⟨5, true⟩ (fun _ => ⟨false, 10, true, false, false, 0⟩) 9 freshState
      [⟨"a", 0, none⟩, ⟨"b", 1, none⟩] rfl (fun _ => ⟨rfl, rfl, rfl⟩)
      (by intro a ha k; simp at ha
          rcases ha with rfl | rfl <;>
            first
              | exact (by decide : (0:Nat) < 10)
              | exact (by decide : (1:Nat) < 10))).2.1⟩

theorem unfollow_batch_processed (cfg : Config) (env : Nat → ItemEnv) (now : Nat)
    (s : LedgerState) (accounts : List InvalidAccount) :
    ∃ t, (unfollow_batch cfg env now s accounts).state.processed_accounts
      = s.processed_accounts ++ t := by
  obtain ⟨t, ht⟩ := runBatchLoop_processed cfg env
    (accounts.take (min cfg.batchSize accounts.length)) 0 s
  exact ⟨t, ht⟩

/-- Claim C7: `load_state` never raises (it is a total function of the modelled
filesystem); a missing file yields the fresh empty ledger and an unchanged
filesystem; a malformed file yields the fresh ledger while the corrupt content
is moved — not deleted — to the `.backup`-suffixed name; and a parsed document
has every missing key defaulted. -/
theorem c7_load_state_recovery :
    (∀ fs : FileSys, fs.lookup STATE_FILE = none → load_state fs = (freshState, fs))
    ∧ (∀ (raw : String) (rest : FileSys),
        (load_state ((STATE_FILE, StateFileContent.malformed raw) :: rest)).1 = freshState
        ∧ ((load_state ((STATE_FILE, StateFileContent.malformed raw) :: rest)).2).lookup
            STATE_FILE = none
        ∧ ((load_state ((STATE_FILE, StateFileContent.malformed raw) :: rest)).2).lookup
            (STATE_FILE ++ ".backup") = some (StateFileContent.malformed raw))
    ∧ (∀ (d : StateDoc) (rest : FileSys),
        load_state ((STATE_FILE, StateFileContent.doc d) :: rest)
          = ({ last_run := d.last_run.getD none,
               processed_accounts := d.processed_accounts.getD [],
               unfollowed_accounts := d.unfollowed_accounts.getD [] },
             (STATE_FILE, StateFileContent.doc d) :: rest)) := by
  refine ⟨?_, ?_, ?_⟩
  · intro fs h
    unfold load_state
    rw [h]
  · intro raw rest
    have hc : ((STATE_FILE, StateFileContent.malformed raw) :: rest).lookup STATE_FILE
        = some (StateFileContent.malformed raw) := by
      simp [List.lookup_cons]
    have hr := renameFile_lookups ((STATE_FILE, StateFileContent.malformed raw) :: rest)
        STATE_FILE (STATE_FILE ++ ".backup") (StateFileContent.malformed raw)
        (by decide) hc
    refine ⟨?_, ?_, ?_⟩
    · unfold load_state
      rw [hc]
    · unfold load_state
      rw [hc]
      exact hr.1
    · unfold load_state
      rw [hc]
      exact hr.2
  · intro d rest
    have hc : ((STATE_FILE, StateFileContent.doc d) :: rest).lookup STATE_FILE
        = some (StateFileContent.doc d) := by
      simp [List.lookup_cons]
    unfold load_state
    rw [hc]

/-- Witness for C7: loading from an empty filesystem returns the fresh state. -/
theorem c7_load_state_recovery_witness : load_state [] = (freshState, []) :=
  c7_load_state_recovery.1 [] rfl

/-- Claim C8: a handle already recorded in `processed_accounts` at the start of
a run is never handed to the classifier during that run, and
`processed_accounts` is monotonic — both the whole scan and the remediation
batch only append to it. -/
theorem c8_no_reclassification (cfg : Config) (elements : List (Option String))
    (profEnv : Nat → ProfileEnv) (itemEnv : Nat → ItemEnv) (now : Nat) (s : LedgerState)
    (h : String) :
    (h ∈ s.processed_accounts →
      h ∉ (unfollow_invalid_accounts cfg elements profEnv itemEnv now s).checked)
    ∧ (∃ t, (unfollow_invalid_accounts cfg elements profEnv itemEnv
        now s).state.processed_accounts = s.processed_accounts ++ t)
    ∧ (∀ accounts : List InvalidAccount, ∃ t,
        (unfollow_batch cfg itemEnv now s accounts).state.processed_accounts
          = s.processed_accounts ++ t) := by
  refine ⟨?_, ?_, ?_⟩
  · intro hmem
    rw [scan_checked]
    exact extractUsernames_skips _ _ _ hmem
  · cases hE : ((classifyLoop profEnv 0 s
        (extractUsernames s.processed_accounts elements)).2).isEmpty with
    | true =>
        rw [scan_state_empty cfg elements profEnv itemEnv now s hE, classifyLoop_state]
        exact ⟨_, rfl⟩
    | false =>
        rw [scan_state_batch cfg elements profEnv itemEnv now s hE]
        obtain ⟨t2, ht2⟩ := unfollow_batch_processed cfg itemEnv now
          (classifyLoop profEnv 0 s (extractUsernames s.processed_accounts elements)).1
          (classifyLoop profEnv 0 s (extractUsernames s.processed_accounts elements)).2
        rw [ht2, classifyLoop_state]
        refine ⟨(extractUsernames s.processed_accounts elements).map (·.username) ++ t2, ?_⟩
        simp [List.append_assoc]
  · intro accounts
    exact unfollow_batch_processed cfg itemEnv now s accounts

/-- Witness for C8: a handle already processed is absent from the run's
classification trace. -/
theorem c8_no_reclassification_witness :
    "seen" ∉ (unfollow_invalid_accounts ⟨5, true⟩ [some "seen", some "new"]
      (fun _ => ⟨false, false, false, false, "", false, true⟩)
      (fun _ => ⟨false, 10, true, false, false, 0⟩) 9
      { last_run := none, processed_accounts := ["seen"],
        unfollowed_accounts := [] }).checked :=
  (c8_no_reclassification ⟨5, true⟩ [some "seen", some "new"]
    (fun _ => ⟨false, false, false, false, "", false, true⟩)
    (fun _ => ⟨false, 10, true, false, false, 0⟩) 9
    { last_run := none, processed_accounts := ["seen"], unfollowed_accounts := [] }
    "seen").1 (by decide)

/-- Claim C10: recording a remediation event always records (or finds already
recorded) the handle as classified — `unfollowed_accounts` handles form a
subset of `processed_accounts`, preserved by the remediation batch and by the
whole scan. -/
theorem c10_events_subset (cfg : Config) (elements : List (Option String))
    (profEnv : Nat → ProfileEnv) (itemEnv : Nat → ItemEnv) (now : Nat) (s : LedgerState)
    (accounts : List InvalidAccount) :
    (remediationSubsetInv s →
      remediationSubsetInv (unfollow_batch cfg itemEnv now s accounts).state)
    ∧ (remediationSubsetInv s →
      remediationSubsetInv
        (unfollow_invalid_accounts cfg elements profEnv itemEnv now s).state) := by
  constructor
  · intro hinv ev hev
    exact runBatchLoop_inv cfg itemEnv _ 0 s hinv ev hev
  · intro hinv
    cases hE : ((classifyLoop profEnv 0 s
        (extractUsernames s.processed_accounts elements)).2).isEmpty with
    | true =>
        rw [scan_state_empty cfg elements profEnv itemEnv now s hE, classifyLoop_state]
        exact inv_append_processed s _ hinv
    | false =>
        rw [scan_state_batch cfg elements profEnv itemEnv now s hE]
        have hinv1 : remediationSubsetInv
            (classifyLoop profEnv 0 s (extractUsernames s.processed_accounts elements)).1 := by
          rw [classifyLoop_state]
          exact inv_append_processed s _ hinv
        intro ev hev
        exact runBatchLoop_inv cfg itemEnv _ 0 _ hinv1 ev hev

/-- Witness for C10: a non-dry batch over a fresh ledger keeps the subset
property. -/
theorem c10_events_subset_witness :
    remediationSubsetInv (unfollow_batch ⟨5, false⟩
      (fun _ => ⟨false, 10, true, false, false, 3⟩) 9 freshState [⟨"a", 0, none⟩]).state :=
  (c10_events_subset ⟨5, false⟩ [] (fun _ => ⟨false, false, false, false, "", false, false⟩)
    (fun _ => ⟨false, 10, true, false, false, 3⟩) 9 freshState [⟨"a", 0, none⟩]).1
    (by intro ev hev; exact absurd hev (List.not_mem_nil ev))
